import Mathlib

/-!
Shallow embedding of the per-client rate-limiting middleware of
`src/limit.py` (class `RateLimitMiddleware`), the core selected by the
specification.  Python exceptions raised during a dispatch are embedded as
`Except.error`; the middleware's mutable fields (`daily_limit`,
`counter`) are threaded explicitly as a state value.  The Python `dict`
`self.counter` is embedded as an association list with unique keys,
`lookupEntry`/`setEntry` giving the `dict` read/write semantics.
-/

deriving instance DecidableEq for Except

namespace RateLimit

/-- Python `s.startswith(p)`: the first `len(p)` characters of `s` equal
`p`.  Defined over the character lists so that concrete instances reduce
inside the kernel. -/
def startswith (s p : String) : Bool := s.data.take p.data.length == p.data

/-- An address record as exposed by the framework: `request.client` with a
`host` attribute. -/
structure Client where
  host : String
  deriving DecidableEq, Repr

/-- The part of the inbound request the middleware reads: `request.client`
(which can be absent, hence `Option`) and `request.url.path`. -/
structure Request where
  client : Option Client
  path : String
  deriving DecidableEq, Repr

/-- The part of a response the middleware touches: a status code and a
mutable header map. -/
structure Response where
  status : Nat
  headers : List (String × String)
  deriving DecidableEq, Repr

/-- Exceptions that can escape a dispatch: `HTTPException(status_code,
detail)` raised by the middleware itself or by downstream code, and the
`AttributeError` produced by `request.client.host` when `request.client`
is `None`. -/
inductive DispatchError where
  | httpException (status_code : Nat) (detail : String)
  | attributeError
  deriving DecidableEq, Repr

/-- The middleware's own state: `self.daily_limit` and `self.counter`
(per-client usage by IP, src/limit.py lines 7-8). -/
structure RateLimitMiddleware where
  daily_limit : Int
  counter : List (String × Nat)
  deriving DecidableEq, Repr

/-- Read access of a Python `dict` embedded as an association list:
`d[k]` when present, `none` when absent. -/
def lookupEntry {β : Type} : List (String × β) → String → Option β
  | [], _ => none
  | (k, v) :: rest, key => if k = key then some v else lookupEntry rest key

/-- Write access of a Python `dict`: `d[k] = v` overwrites an existing
binding in place or appends a new one at the end. -/
def setEntry {β : Type} : List (String × β) → String → β → List (String × β)
  | [], key, v => [(key, v)]
  | (k, w) :: rest, key, v =>
      if k = key then (key, v) :: rest else (k, w) :: setEntry rest key v

/-- Header assignment `response.headers[k] = v`. -/
def setHeader (r : Response) (k v : String) : Response :=
  { r with headers := setEntry r.headers k v }

/-- Embedding of the constructor (src/limit.py lines 5-8).  A Python
constructor reports invalid configuration by raising, embedded here as
`Except`; this body stores `daily_limit` and an empty counter and
performs no check, so it never produces an error. -/
def _init_ (daily_limit : Int) : Except String RateLimitMiddleware :=
  Except.ok { daily_limit := daily_limit, counter := [] }

/-- Embedding of src/limit.py lines 23-30: obtain the response from
`call_next`, compute `remaining = self.daily_limit -
self.counter[client_ip]`, and set the `X-Remaining-Requests` header.  An
exception from `call_next` propagates unchanged while the counter state
(held on `self`) persists. -/
def attachRemaining (m : RateLimitMiddleware) (client_ip : String) (req : Request)
    (call_next : Request → Except DispatchError Response) :
    RateLimitMiddleware × Except DispatchError Response :=
  match call_next req with
  | Except.error e => (m, Except.error e)
  | Except.ok resp =>
      (m, Except.ok (setHeader resp "X-Remaining-Requests"
        (toString (m.daily_limit - ((lookupEntry m.counter client_ip).getD 0 : Int)))))

/-- Embedding of `RateLimitMiddleware.dispatch` (src/limit.py lines
10-32).  `request.client.host` raises `AttributeError` when
`request.client` is `None` (line 11); otherwise the client's counter
entry is created if absent (lines 12-13); for a path starting with
`/query` the request is rejected by raising `HTTPException(429, "Daily
request limit reached")` once the count has reached `daily_limit` (lines
15-20) and the count is incremented otherwise (line 21); finally the
response is fetched and annotated (lines 23-30, `attachRemaining`). -/
def dispatch (m : RateLimitMiddleware) (req : Request)
    (call_next : Request → Except DispatchError Response) :
    RateLimitMiddleware × Except DispatchError Response :=
  match req.client with
  | none => (m, Except.error DispatchError.attributeError)
  | some cl =>
      let client_ip := cl.host
      let counter0 : List (String × Nat) :=
        match lookupEntry m.counter client_ip with
        | some _ => m.counter
        | none => setEntry m.counter client_ip 0
      let count0 : Nat := (lookupEntry counter0 client_ip).getD 0
      if startswith req.path "/query" then
        if (count0 : Int) ≥ m.daily_limit then
          ({ m with counter := counter0 },
            Except.error (DispatchError.httpException 429 "Daily request limit reached"))
        else
          attachRemaining { m with counter := setEntry counter0 client_ip (count0 + 1) }
            client_ip req call_next
      else
        attachRemaining { m with counter := counter0 } client_ip req call_next

/-- Sequential handling of a list of requests against the shared
middleware state, collecting each request's outcome.  A raised exception
terminates that one request's handling (its outcome is `Except.error`)
while the middleware state persists for the following requests, as it
does for the long-lived `self` of the Python class. -/
def runSeq (m : RateLimitMiddleware) (reqs : List Request)
    (call_next : Request → Except DispatchError Response) :
    RateLimitMiddleware × List (Except DispatchError Response) :=
  match reqs with
  | [] => (m, [])
  | r :: rs =>
      let p := dispatch m r call_next
      let q := runSeq p.1 rs call_next
      (q.1, p.2 :: q.2)

/-- The outcome of a rejected guarded request: the `HTTPException` of
src/limit.py lines 17-20. -/
def reject429 : Except DispatchError Response :=
  Except.error (DispatchError.httpException 429 "Daily request limit reached")

/-- The outcome of the k-th allowed guarded request under limit `L`: the
downstream response with the remaining-quota header set to `L - k`. -/
def allowedOutcome (L : Int) (k : Nat) (resp : Response) : Except DispatchError Response :=
  Except.ok (setHeader resp "X-Remaining-Requests" (toString (L - (k : Int))))

/-- Expected outcome list of `n` guarded requests from one client whose
count currently stands at `c`, under limit `L`, when downstream always
answers `resp`. -/
def expectedRun (L : Nat) (resp : Response) : Nat → Nat → List (Except DispatchError Response)
  | _, 0 => []
  | c, n + 1 =>
      if c < L then allowedOutcome (L : Int) (c + 1) resp :: expectedRun L resp (c + 1) n
      else reject429 :: expectedRun L resp c n

/-- A dispatch outcome that delegated and completed normally. -/
def isAllowed : Except DispatchError Response → Bool
  | Except.ok _ => true
  | Except.error _ => false

/-- All counts stored in the counter are at most `L`. -/
def countsLe (counter : List (String × Nat)) (L : Nat) : Prop :=
  ∀ ip c, lookupEntry counter ip = some c → c ≤ L

/-- A concrete guarded request used by witnesses and counterexamples. -/
def reqQ : Request := { client := some { host := "1.2.3.4" }, path := "/query" }

/-- A concrete unguarded request. -/
def reqH : Request := { client := some { host := "1.2.3.4" }, path := "/health" }

/-- A concrete request whose connection origin is unavailable. -/
def reqNoClient : Request := { client := none, path := "/query" }

/-- A concrete plain downstream response. -/
def resp200 : Response := { status := 200, headers := [] }

/-- A concrete downstream handler that always succeeds with `resp200`. -/
def cnOk : Request → Except DispatchError Response := fun _ => Except.ok resp200

theorem lookupEntry_setEntry_self {β : Type} (l : List (String × β)) (k : String) (v : β) :
    lookupEntry (setEntry l k v) k = some v := by
  induction l with
  | nil => simp [setEntry, lookupEntry]
  | cons p rest ih =>
      obtain ⟨k0, w⟩ := p
      by_cases h : k0 = k
      · subst h
        simp [setEntry, lookupEntry]
      · simp [setEntry, lookupEntry, h, ih]

theorem lookupEntry_setEntry_ne {β : Type} (l : List (String × β)) (k key : String) (v : β)
    (h : key ≠ k) : lookupEntry (setEntry l k v) key = lookupEntry l key := by
  induction l with
  | nil => simp [setEntry, lookupEntry, Ne.symm h]
  | cons p rest ih =>
      obtain ⟨k0, w⟩ := p
      by_cases hk : k0 = k
      · subst hk
        simp [setEntry, lookupEntry, Ne.symm h]
      · by_cases hky : k0 = key <;> simp [setEntry, lookupEntry, hk, hky, ih, h]

theorem attachRemaining_eq (m : RateLimitMiddleware) (ip : String) (req : Request)
    (cn : Request → Except DispatchError Response) :
    attachRemaining m ip req cn =
      (m, Except.map (fun resp => setHeader resp "X-Remaining-Requests"
        (toString (m.daily_limit - ((lookupEntry m.counter ip).getD 0 : Int)))) (cn req)) := by
  cases h : cn req <;> simp [attachRemaining, h, Except.map]

theorem dispatch_noClient (m : RateLimitMiddleware) (req : Request)
    (cn : Request → Except DispatchError Response) (hc : req.client = none) :
    dispatch m req cn = (m, Except.error DispatchError.attributeError) := by
  simp [dispatch, hc]

theorem dispatch_fresh (m : RateLimitMiddleware) (req : Request) (cl : Client)
    (cn : Request → Except DispatchError Response)
    (hc : req.client = some cl) (hl : lookupEntry m.counter cl.host = none) :
    dispatch m req cn
      = dispatch { m with counter := setEntry m.counter cl.host 0 } req cn := by
  simp [dispatch, hc, hl, lookupEntry_setEntry_self]

theorem dispatch_rejected (m : RateLimitMiddleware) (req : Request) (cl : Client)
    (cn : Request → Except DispatchError Response) (c : Nat)
    (hc : req.client = some cl) (hp : startswith req.path "/query" = true)
    (hl : lookupEntry m.counter cl.host = some c) (hge : m.daily_limit ≤ (c : Int)) :
    dispatch m req cn = (m, reject429) := by
  simp [dispatch, hc, hl, hp, hge, reject429]

theorem dispatch_allowed_parts (m : RateLimitMiddleware) (req : Request) (cl : Client)
    (cn : Request → Except DispatchError Response) (c : Nat)
    (hc : req.client = some cl) (hp : startswith req.path "/query" = true)
    (hl : lookupEntry m.counter cl.host = some c) (hlt : (c : Int) < m.daily_limit) :
    dispatch m req cn =
      ({ m with counter := setEntry m.counter cl.host (c + 1) },
        Except.map (fun resp => setHeader resp "X-Remaining-Requests"
          (toString (m.daily_limit - ((c + 1 : Nat) : Int)))) (cn req)) := by
  have hnot : ¬ (m.daily_limit ≤ (c : Int)) := not_le.mpr hlt
  simp [dispatch, hc, hl, hp, hnot, attachRemaining_eq, lookupEntry_setEntry_self]

theorem dispatch_allowed (m : RateLimitMiddleware) (req : Request) (cl : Client)
    (resp : Response) (cn : Request → Except DispatchError Response) (c : Nat)
    (hc : req.client = some cl) (hp : startswith req.path "/query" = true)
    (hl : lookupEntry m.counter cl.host = some c) (hlt : (c : Int) < m.daily_limit)
    (hcn : cn req = Except.ok resp) :
    dispatch m req cn =
      ({ m with counter := setEntry m.counter cl.host (c + 1) },
        allowedOutcome m.daily_limit (c + 1) resp) := by
  rw [dispatch_allowed_parts m req cl cn c hc hp hl hlt, hcn]
  simp [allowedOutcome, Except.map]

theorem dispatch_unguarded (m : RateLimitMiddleware) (req : Request) (cl : Client)
    (cn : Request → Except DispatchError Response)
    (hc : req.client = some cl) (hp : startswith req.path "/query" = false) :
    dispatch m req cn =
      ({ m with counter :=
          match lookupEntry m.counter cl.host with
          | some _ => m.counter
          | none => setEntry m.counter cl.host 0 },
        Except.map (fun resp => setHeader resp "X-Remaining-Requests"
          (toString (m.daily_limit - ((lookupEntry m.counter cl.host).getD 0 : Int)))) (cn req)) := by
  cases hl : lookupEntry m.counter cl.host with
  | none => simp [dispatch, hc, hp, hl, attachRemaining_eq, lookupEntry_setEntry_self]
  | some c => simp [dispatch, hc, hp, hl, attachRemaining_eq]

/-- The counter state left behind by one dispatch, extracted from the
branches of `dispatch` (the outcome does not feed back into it). -/
def counterAfter (m : RateLimitMiddleware) (req : Request) : List (String × Nat) :=
  match req.client with
  | none => m.counter
  | some cl =>
      let counter0 : List (String × Nat) :=
        match lookupEntry m.counter cl.host with
        | some _ => m.counter
        | none => setEntry m.counter cl.host 0
      let count0 : Nat := (lookupEntry counter0 cl.host).getD 0
      if startswith req.path "/query" then
        if (count0 : Int) ≥ m.daily_limit then counter0
        else setEntry counter0 cl.host (count0 + 1)
      else counter0

theorem attachRemaining_fst (m : RateLimitMiddleware) (ip : String) (req : Request)
    (cn : Request → Except DispatchError Response) :
    (attachRemaining m ip req cn).1 = m := by
  rw [attachRemaining_eq]

theorem dispatch_fst (m : RateLimitMiddleware) (req : Request)
    (cn : Request → Except DispatchError Response) :
    (dispatch m req cn).1 = { m with counter := counterAfter m req } := by
  cases hc : req.client with
  | none => simp [dispatch, counterAfter, hc]
  | some cl =>
      simp only [dispatch, counterAfter, hc]
      split
      · split
        · rfl
        · rw [attachRemaining_fst]
      · rw [attachRemaining_fst]

theorem dispatch_daily_limit (m : RateLimitMiddleware) (req : Request)
    (cn : Request → Except DispatchError Response) :
    (dispatch m req cn).1.daily_limit = m.daily_limit := by
  rw [dispatch_fst]

theorem counterAfter_frame (m : RateLimitMiddleware) (req : Request) (ip : String)
    (h : ∀ cl : Client, req.client = some cl → cl.host ≠ ip) :
    lookupEntry (counterAfter m req) ip = lookupEntry m.counter ip := by
  cases hc : req.client with
  | none => simp [counterAfter, hc]
  | some cl =>
      have hne : ip ≠ cl.host := Ne.symm (h cl hc)
      have h0 : lookupEntry (setEntry m.counter cl.host 0) ip = lookupEntry m.counter ip :=
        lookupEntry_setEntry_ne m.counter cl.host ip 0 hne
      simp only [counterAfter, hc]
      cases hl : lookupEntry m.counter cl.host with
      | none =>
          split
          · split
            · exact h0
            · rw [lookupEntry_setEntry_ne _ _ _ _ hne, h0]
          · exact h0
      | some c =>
          split
          · split
            · rfl
            · rw [lookupEntry_setEntry_ne _ _ _ _ hne]
          · rfl

theorem dispatch_frame (m : RateLimitMiddleware) (req : Request)
    (cn : Request → Except DispatchError Response) (ip : String)
    (h : ∀ cl : Client, req.client = some cl → cl.host ≠ ip) :
    lookupEntry (dispatch m req cn).1.counter ip = lookupEntry m.counter ip := by
  rw [dispatch_fst]
  exact counterAfter_frame m req ip h

theorem runSeq_cons (m : RateLimitMiddleware) (r : Request) (rs : List Request)
    (cn : Request → Except DispatchError Response) :
    runSeq m (r :: rs) cn
      = ((runSeq (dispatch m r cn).1 rs cn).1,
         (dispatch m r cn).2 :: (runSeq (dispatch m r cn).1 rs cn).2) := rfl

theorem runSeq_congr_head (m m' : RateLimitMiddleware) (r : Request) (rs : List Request)
    (cn : Request → Except DispatchError Response)
    (h : dispatch m r cn = dispatch m' r cn) :
    runSeq m (r :: rs) cn = runSeq m' (r :: rs) cn := by
  rw [runSeq_cons, runSeq_cons, h]

theorem runSeq_daily_limit (cn : Request → Except DispatchError Response) :
    ∀ (reqs : List Request) (m : RateLimitMiddleware),
      (runSeq m reqs cn).1.daily_limit = m.daily_limit := by
  intro reqs
  induction reqs with
  | nil => intro m; rfl
  | cons r rs ih =>
      intro m
      rw [runSeq_cons]
      calc (runSeq (dispatch m r cn).1 rs cn).1.daily_limit
          = (dispatch m r cn).1.daily_limit := ih (dispatch m r cn).1
        _ = m.daily_limit := dispatch_daily_limit m r cn

theorem runSeq_frame (cn : Request → Except DispatchError Response) (ip : String) :
    ∀ (reqs : List Request) (m : RateLimitMiddleware),
      (∀ r ∈ reqs, ∀ cl : Client, r.client = some cl → cl.host ≠ ip) →
      lookupEntry (runSeq m reqs cn).1.counter ip = lookupEntry m.counter ip := by
  intro reqs
  induction reqs with
  | nil => intro m _; rfl
  | cons r rs ih =>
      intro m h
      rw [runSeq_cons]
      calc lookupEntry (runSeq (dispatch m r cn).1 rs cn).1.counter ip
          = lookupEntry (dispatch m r cn).1.counter ip :=
            ih (dispatch m r cn).1 (fun rr hrr => h rr (List.mem_cons_of_mem r hrr))
        _ = lookupEntry m.counter ip :=
            dispatch_frame m r cn ip (h r (List.mem_cons_self r rs))

theorem countsLe_setEntry (counter : List (String × Nat)) (L : Nat) (ip : String) (v : Nat)
    (h : countsLe counter L) (hv : v ≤ L) : countsLe (setEntry counter ip v) L := by
  intro ip2 c hc
  by_cases hip : ip2 = ip
  · subst hip
    rw [lookupEntry_setEntry_self] at hc
    cases Option.some.inj hc
    exact hv
  · rw [lookupEntry_setEntry_ne _ _ _ _ hip] at hc
    exact h ip2 c hc

theorem dispatch_invariant_present (L : Nat) (m : RateLimitMiddleware) (req : Request)
    (cl : Client) (cn : Request → Except DispatchError Response) (c : Nat)
    (hd : m.daily_limit = (L : Int)) (hinv : countsLe m.counter L)
    (hc : req.client = some cl) (hl : lookupEntry m.counter cl.host = some c) :
    countsLe (dispatch m req cn).1.counter L ∧
    (∀ r : Response, (dispatch m req cn).2 = Except.ok r →
      ∃ v : Int, 0 ≤ v ∧ v ≤ (L : Int) ∧
        lookupEntry r.headers "X-Remaining-Requests" = some (toString v)) := by
  have hcL : c ≤ L := hinv cl.host c hl
  cases hp : startswith req.path "/query" with
  | true =>
      by_cases hge : m.daily_limit ≤ (c : Int)
      · rw [dispatch_rejected m req cl cn c hc hp hl hge]
        refine ⟨hinv, ?_⟩
        intro r hr
        simp [reject429] at hr
      · have hlt : (c : Int) < m.daily_limit := not_le.mp hge
        have hcLt : c < L := by
          rw [hd] at hlt
          exact_mod_cast hlt
        rw [dispatch_allowed_parts m req cl cn c hc hp hl hlt]
        constructor
        · exact countsLe_setEntry m.counter L cl.host (c + 1) hinv hcLt
        · intro r hr
          cases hcn : cn req with
          | error e =>
              rw [hcn] at hr
              simp [Except.map] at hr
          | ok resp =>
              rw [hcn] at hr
              simp only [Except.map] at hr
              cases Except.ok.inj hr
              refine ⟨m.daily_limit - ((c + 1 : Nat) : Int), ?_, ?_, ?_⟩
              · rw [hd]
                omega
              · rw [hd]
                omega
              · exact lookupEntry_setEntry_self resp.headers _ _
  | false =>
      rw [dispatch_unguarded m req cl cn hc hp]
      simp only [hl]
      refine ⟨hinv, ?_⟩
      intro r hr
      cases hcn : cn req with
      | error e =>
          rw [hcn] at hr
          simp [Except.map] at hr
      | ok resp =>
          rw [hcn] at hr
          simp only [Except.map] at hr
          cases Except.ok.inj hr
          refine ⟨m.daily_limit - ((c : Nat) : Int), ?_, ?_, ?_⟩
          · rw [hd]
            omega
          · rw [hd]
            omega
          · exact lookupEntry_setEntry_self resp.headers _ _

theorem dispatch_invariant (L : Nat) (m : RateLimitMiddleware) (req : Request)
    (cn : Request → Except DispatchError Response)
    (hd : m.daily_limit = (L : Int)) (hinv : countsLe m.counter L) :
    countsLe (dispatch m req cn).1.counter L ∧
    (∀ r : Response, (dispatch m req cn).2 = Except.ok r →
      ∃ v : Int, 0 ≤ v ∧ v ≤ (L : Int) ∧
        lookupEntry r.headers "X-Remaining-Requests" = some (toString v)) := by
  cases hc : req.client with
  | none =>
      rw [dispatch_noClient m req cn hc]
      exact ⟨hinv, fun r hr => by cases hr⟩
  | some cl =>
      cases hl : lookupEntry m.counter cl.host with
      | some c => exact dispatch_invariant_present L m req cl cn c hd hinv hc hl
      | none =>
          rw [dispatch_fresh m req cl cn hc hl]
          exact dispatch_invariant_present L _ req cl cn 0 hd
            (countsLe_setEntry m.counter L cl.host 0 hinv (Nat.zero_le L)) hc
            (lookupEntry_setEntry_self m.counter cl.host 0)

theorem runSeq_invariant (L : Nat) (cn : Request → Except DispatchError Response) :
    ∀ (reqs : List Request) (m : RateLimitMiddleware),
      m.daily_limit = (L : Int) → countsLe m.counter L →
      countsLe (runSeq m reqs cn).1.counter L ∧
      ∀ o ∈ (runSeq m reqs cn).2, ∀ r : Response, o = Except.ok r →
        ∃ v : Int, 0 ≤ v ∧ v ≤ (L : Int) ∧
          lookupEntry r.headers "X-Remaining-Requests" = some (toString v) := by
  intro reqs
  induction reqs with
  | nil =>
      intro m hd hinv
      exact ⟨hinv, by simp [runSeq]⟩
  | cons r rs ih =>
      intro m hd hinv
      obtain ⟨hstate, hout⟩ := dispatch_invariant L m r cn hd hinv
      have hd1 : (dispatch m r cn).1.daily_limit = (L : Int) := by
        rw [dispatch_daily_limit]
        exact hd
      obtain ⟨hs, ho⟩ := ih (dispatch m r cn).1 hd1 hstate
      rw [runSeq_cons]
      refine ⟨hs, ?_⟩
      intro o hmem rr hr
      simp only [List.mem_cons] at hmem
      cases hmem with
      | inl h1 =>
          subst h1
          exact hout rr hr
      | inr h2 => exact ho o h2 rr hr

theorem expectedRun_length (L : Nat) (resp : Response) :
    ∀ (n c : Nat), (expectedRun L resp c n).length = n := by
  intro n
  induction n with
  | zero => intro c; rfl
  | succ k ih =>
      intro c
      by_cases h : c < L <;> simp [expectedRun, h, ih]

theorem expectedRun_of_ge (L : Nat) (resp : Response) :
    ∀ (n c : Nat), L ≤ c → expectedRun L resp c n = List.replicate n reject429 := by
  intro n
  induction n with
  | zero => intro c _; rfl
  | succ k ih =>
      intro c h
      rw [expectedRun, if_neg (Nat.not_lt.mpr h), ih c h, List.replicate_succ]

theorem expectedRun_countP (L : Nat) (resp : Response) :
    ∀ (n c : Nat), c ≤ L →
      (expectedRun L resp c n).countP isAllowed = min n (L - c) := by
  intro n
  induction n with
  | zero => intro c _; simp [expectedRun]
  | succ k ih =>
      intro c h
      by_cases hlt : c < L
      · rw [expectedRun, if_pos hlt, List.countP_cons, ih (c + 1) hlt]
        simp only [isAllowed, allowedOutcome, if_true]
        omega
      · rw [expectedRun, if_neg hlt, List.countP_cons, ih c h]
        simp only [isAllowed, reject429, Bool.false_eq_true, if_false]
        omega

theorem expectedRun_getD (L : Nat) (resp : Response) :
    ∀ (n c i : Nat), c ≤ L → i < n →
      (expectedRun L resp c n).getD i reject429 =
        if c + i < L then allowedOutcome (L : Int) (c + i + 1) resp else reject429 := by
  intro n
  induction n with
  | zero => intro c i _ hi; exact absurd hi (Nat.not_lt_zero i)
  | succ k ih =>
      intro c i hc hi
      by_cases hlt : c < L
      · cases i with
        | zero => simp [expectedRun, hlt]
        | succ j =>
            rw [expectedRun, if_pos hlt]
            rw [List.getD_cons_succ, ih (c + 1) j hlt (Nat.lt_of_succ_lt_succ hi)]
            have harith : c + 1 + j = c + (j + 1) := by omega
            rw [harith]
      · cases i with
        | zero =>
            rw [expectedRun, if_neg hlt]
            rw [List.getD_cons_zero, if_neg (by omega)]
        | succ j =>
            rw [expectedRun, if_neg hlt]
            rw [List.getD_cons_succ, ih c j hc (Nat.lt_of_succ_lt_succ hi)]
            have h1 : ¬ (c + j < L) := by omega
            have h2 : ¬ (c + (j + 1) < L) := by omega
            rw [if_neg h1, if_neg h2]

theorem expectedRun_drop (L : Nat) (resp : Response) :
    ∀ (n c : Nat), c ≤ L →
      (expectedRun L resp c n).drop (L - c) = List.replicate (n - (L - c)) reject429 := by
  intro n
  induction n with
  | zero => intro c _; simp [expectedRun]
  | succ k ih =>
      intro c h
      by_cases hlt : c < L
      · have hLc : L - c = (L - (c + 1)) + 1 := by omega
        rw [expectedRun, if_pos hlt, hLc, List.drop_succ_cons, ih (c + 1) hlt]
        have : k + 1 - (L - (c + 1) + 1) = k - (L - (c + 1)) := by omega
        rw [this]
      · have hLc : L - c = 0 := by omega
        rw [expectedRun, if_neg hlt, hLc, List.drop_zero,
          expectedRun_of_ge L resp k c (Nat.not_lt.mp hlt), ← List.replicate_succ,
          Nat.sub_zero]

theorem runSeq_replicate_guarded (L : Nat) (req : Request) (cl : Client) (resp : Response)
    (cn : Request → Except DispatchError Response)
    (hc : req.client = some cl) (hp : startswith req.path "/query" = true)
    (hcn : cn req = Except.ok resp) :
    ∀ (n c : Nat) (m : RateLimitMiddleware), c ≤ L →
      m.daily_limit = (L : Int) →
      lookupEntry m.counter cl.host = some c →
      (runSeq m (List.replicate n req) cn).2 = expectedRun L resp c n ∧
      lookupEntry (runSeq m (List.replicate n req) cn).1.counter cl.host
        = some (min (c + n) L) := by
  intro n
  induction n with
  | zero =>
      intro c m hcL hd hl
      refine ⟨rfl, ?_⟩
      simp only [List.replicate, runSeq]
      rw [hl]
      congr 1
      omega
  | succ k ih =>
      intro c m hcL hd hl
      rw [List.replicate_succ, runSeq_cons]
      by_cases hlt : c < L
      · have hltI : (c : Int) < m.daily_limit := by
          rw [hd]
          exact_mod_cast hlt
        rw [dispatch_allowed m req cl resp cn c hc hp hl hltI hcn]
        obtain ⟨ho, hs⟩ := ih (c + 1)
          { m with counter := setEntry m.counter cl.host (c + 1) } hlt hd
          (lookupEntry_setEntry_self m.counter cl.host (c + 1))
        refine ⟨?_, ?_⟩
        · rw [expectedRun, if_pos hlt]
          dsimp only
          rw [ho, hd]
        · dsimp only
          rw [hs]
          congr 1
          omega
      · have hge : m.daily_limit ≤ (c : Int) := by
          rw [hd]
          exact_mod_cast Nat.not_lt.mp hlt
        rw [dispatch_rejected m req cl cn c hc hp hl hge]
        obtain ⟨ho, hs⟩ := ih c m hcL hd hl
        refine ⟨?_, ?_⟩
        · rw [expectedRun, if_neg hlt]
          dsimp only
          rw [ho]
        · dsimp only
          rw [hs]
          congr 1
          omega

theorem runSeq_guarded_fresh (L : Nat) (req : Request) (cl : Client) (resp : Response)
    (cn : Request → Except DispatchError Response)
    (hc : req.client = some cl) (hp : startswith req.path "/query" = true)
    (hcn : cn req = Except.ok resp) (n : Nat) (m : RateLimitMiddleware)
    (hd : m.daily_limit = (L : Int)) (hl : lookupEntry m.counter cl.host = none) :
    (runSeq m (List.replicate n req) cn).2 = expectedRun L resp 0 n := by
  cases n with
  | zero => rfl
  | succ k =>
      rw [List.replicate_succ,
        runSeq_congr_head m { m with counter := setEntry m.counter cl.host 0 } req
          (List.replicate k req) cn (dispatch_fresh m req cl cn hc hl),
        ← List.replicate_succ]
      exact (runSeq_replicate_guarded L req cl resp cn hc hp hcn (k + 1) 0
        { m with counter := setEntry m.counter cl.host 0 } (Nat.zero_le L) hd
        (lookupEntry_setEntry_self m.counter cl.host 0)).1

/-- A concrete guarded request from a second, distinct client. -/
def reqQB : Request := { client := some { host := "5.6.7.8" }, path := "/query" }

/-- A concrete downstream handler that always fails. -/
def cnFail : Request → Except DispatchError Response :=
  fun _ => Except.error (DispatchError.httpException 500 "downstream failure")

/-- C1: for every sequence of `n` sequential requests from a single client
to a path starting with the guarded `/query` path, with configured
`daily_limit = L` and a downstream handler answering normally, the run
produces `n` outcomes of which exactly `min n L` are delegated, completed
responses, and the outcomes of requests `L+1 .. n` all equal the
429 "Daily request limit reached" rejection — a value produced before any
downstream delegation (it is the same for every downstream handler). -/
theorem guarded_run_min_allowed (L n : Nat) (req : Request) (cl : Client) (resp : Response)
    (cn : Request → Except DispatchError Response)
    (hc : req.client = some cl) (hp : startswith req.path "/query" = true)
    (hcn : cn req = Except.ok resp) :
    ((runSeq { daily_limit := (L : Int), counter := [] } (List.replicate n req) cn).2).length
      = n ∧
    ((runSeq { daily_limit := (L : Int), counter := [] } (List.replicate n req) cn).2).countP
      isAllowed = min n L ∧
    ((runSeq { daily_limit := (L : Int), counter := [] } (List.replicate n req) cn).2).drop L
      = List.replicate (n - L) reject429 := by
  rw [runSeq_guarded_fresh L req cl resp cn hc hp hcn n
    { daily_limit := (L : Int), counter := [] } rfl rfl]
  refine ⟨expectedRun_length L resp n 0, ?_, ?_⟩
  · rw [expectedRun_countP L resp n 0 (Nat.zero_le L), Nat.sub_zero]
  · have h := expectedRun_drop L resp n 0 (Nat.zero_le L)
    rw [Nat.sub_zero] at h
    exact h

/-- Witness for C1 at `L = 3`, `n = 5`, client 1.2.3.4. -/
theorem guarded_run_min_allowed_witness :
    ((runSeq { daily_limit := ((3 : Nat) : Int), counter := [] }
        (List.replicate 5 reqQ) cnOk).2).length = 5 ∧
    ((runSeq { daily_limit := ((3 : Nat) : Int), counter := [] }
        (List.replicate 5 reqQ) cnOk).2).countP isAllowed = min 5 3 ∧
    ((runSeq { daily_limit := ((3 : Nat) : Int), counter := [] }
        (List.replicate 5 reqQ) cnOk).2).drop 3 = List.replicate (5 - 3) reject429 :=
  guarded_run_min_allowed 3 5 reqQ { host := "1.2.3.4" } resp200 cnOk rfl (by decide) rfl

/-- C2 counterexample: with `daily_limit = 1`, the second guarded request is
rejected by raising `HTTPException(429)`: its outcome is an exception
carrying no response at all, so no `X-Remaining-Requests` value `0` is
attached to any response, contrary to the claim.  (The first, allowed
request does carry the value `0 = L - k`.) -/
theorem rejected_no_remaining_header_cex :
    (runSeq { daily_limit := 1, counter := [] } [reqQ, reqQ] cnOk).2
      = [Except.ok { status := 200, headers := [("X-Remaining-Requests", "0")] },
         Except.error (DispatchError.httpException 429 "Daily request limit reached")] := by
  decide

/-- C2 amended: the `X-Remaining-Requests` value on the response to the
k-th allowed guarded request from a client (1-indexed, limit `L`) equals
`L - k`; a rejected guarded request yields no annotated response — its
outcome is the raised 429 exception. -/
theorem remaining_header_on_allowed (L n : Nat) (req : Request) (cl : Client) (resp : Response)
    (cn : Request → Except DispatchError Response)
    (hc : req.client = some cl) (hp : startswith req.path "/query" = true)
    (hcn : cn req = Except.ok resp) :
    (∀ i : Nat, i < n → i < L →
      ∃ r : Response,
        ((runSeq { daily_limit := (L : Int), counter := [] }
            (List.replicate n req) cn).2).getD i reject429 = Except.ok r ∧
        lookupEntry r.headers "X-Remaining-Requests"
          = some (toString ((L : Int) - ((i + 1 : Nat) : Int)))) ∧
    ((runSeq { daily_limit := (L : Int), counter := [] } (List.replicate n req) cn).2).drop L
      = List.replicate (n - L) reject429 := by
  rw [runSeq_guarded_fresh L req cl resp cn hc hp hcn n
    { daily_limit := (L : Int), counter := [] } rfl rfl]
  constructor
  · intro i hin hiL
    rw [expectedRun_getD L resp n 0 i (Nat.zero_le L) hin]
    simp only [Nat.zero_add]
    rw [if_pos hiL]
    exact ⟨_, rfl, lookupEntry_setEntry_self resp.headers _ _⟩
  · have h := expectedRun_drop L resp n 0 (Nat.zero_le L)
    rw [Nat.sub_zero] at h
    exact h

/-- Witness for the amended C2 at `L = 2`, `n = 3`. -/
theorem remaining_header_on_allowed_witness :
    (∀ i : Nat, i < 3 → i < 2 →
      ∃ r : Response,
        ((runSeq { daily_limit := ((2 : Nat) : Int), counter := [] }
            (List.replicate 3 reqQ) cnOk).2).getD i reject429 = Except.ok r ∧
        lookupEntry r.headers "X-Remaining-Requests"
          = some (toString (((2 : Nat) : Int) - ((i + 1 : Nat) : Int)))) ∧
    ((runSeq { daily_limit := ((2 : Nat) : Int), counter := [] }
        (List.replicate 3 reqQ) cnOk).2).drop 2 = List.replicate (3 - 2) reject429 :=
  remaining_header_on_allowed 2 3 reqQ { host := "1.2.3.4" } resp200 cnOk rfl (by decide) rfl

/-- C3 counterexample: with the client's count at the limit, the dispatch
outcome is the raised `HTTPException` — an exception escaping the tracker —
not a returned response value carrying a remaining-quota value. -/
theorem rejection_is_exception_cex :
    dispatch { daily_limit := 1, counter := [("1.2.3.4", 1)] } reqQ cnOk
      = ({ daily_limit := 1, counter := [("1.2.3.4", 1)] },
         Except.error (DispatchError.httpException 429 "Daily request limit reached")) := by
  decide

/-- C3 amended: for every guarded request whose count has reached the
limit, the rejection escapes the dispatch as a raised `HTTPException` with
status 429 and detail "Daily request limit reached": no response value
(hence no remaining-quota value) is produced, the counter is unchanged,
and the downstream handler plays no part in the result. -/
theorem rejection_raises_429 (m : RateLimitMiddleware) (req : Request) (cl : Client)
    (cn : Request → Except DispatchError Response) (c : Nat)
    (hc : req.client = some cl) (hp : startswith req.path "/query" = true)
    (hl : lookupEntry m.counter cl.host = some c) (hge : m.daily_limit ≤ (c : Int)) :
    dispatch m req cn
      = (m, Except.error (DispatchError.httpException 429 "Daily request limit reached")) :=
  dispatch_rejected m req cl cn c hc hp hl hge

/-- Witness for the amended C3 at limit 2, count 2. -/
theorem rejection_raises_429_witness :
    dispatch { daily_limit := 2, counter := [("9.9.9.9", 2)] }
        { client := some { host := "9.9.9.9" }, path := "/query/x" } cnOk
      = ({ daily_limit := 2, counter := [("9.9.9.9", 2)] },
         Except.error (DispatchError.httpException 429 "Daily request limit reached")) :=
  rejection_raises_429 _ _ { host := "9.9.9.9" } cnOk 2 rfl (by decide) (by decide) (by decide)

/-- C4 counterexample: a request whose connection origin is unavailable is
not processed with a sentinel identifier such as "unknown":
`request.client.host` fails with `AttributeError` and nothing is
processed. -/
theorem missing_origin_fails_cex :
    dispatch { daily_limit := 3, counter := [] } reqNoClient cnOk
      = ({ daily_limit := 3, counter := [] }, Except.error DispatchError.attributeError) := by
  decide

/-- C4 amended: for every request whose connection origin is unavailable,
dispatch fails immediately with the `AttributeError` from
`request.client.host`: no sentinel identifier is substituted, the counter
is untouched and the downstream handler is never consulted (the result is
the same for every `cn`). -/
theorem missing_origin_attribute_error (m : RateLimitMiddleware) (req : Request)
    (cn : Request → Except DispatchError Response) (hc : req.client = none) :
    dispatch m req cn = (m, Except.error DispatchError.attributeError) :=
  dispatch_noClient m req cn hc

/-- Witness for the amended C4. -/
theorem missing_origin_attribute_error_witness :
    dispatch { daily_limit := 5, counter := [("1.2.3.4", 2)] }
        { client := none, path := "/health" } cnOk
      = ({ daily_limit := 5, counter := [("1.2.3.4", 2)] },
         Except.error DispatchError.attributeError) :=
  missing_origin_attribute_error _ _ cnOk rfl

/-- C5: with a non-negative limit `L`, `count ≤ daily_limit` (over all
stored client records) is preserved by every dispatch, and holds in every
state reachable by a request sequence from the empty counter — a guarded
request at the limit is rejected, not counted. -/
theorem count_le_limit_invariant (L : Nat) (m : RateLimitMiddleware) (req : Request)
    (reqs : List Request) (cn : Request → Except DispatchError Response)
    (hd : m.daily_limit = (L : Int)) (hinv : countsLe m.counter L) :
    countsLe (dispatch m req cn).1.counter L ∧
    countsLe (runSeq { daily_limit := (L : Int), counter := [] } reqs cn).1.counter L := by
  refine ⟨(dispatch_invariant L m req cn hd hinv).1, ?_⟩
  exact (runSeq_invariant L cn reqs { daily_limit := (L : Int), counter := [] } rfl
    (fun ip c h => by simp [lookupEntry] at h)).1

/-- Witness for C5 at `L = 2` with an exhausting run. -/
theorem count_le_limit_invariant_witness :
    countsLe (dispatch { daily_limit := ((2 : Nat) : Int), counter := [] } reqQ cnOk).1.counter 2 ∧
    countsLe (runSeq { daily_limit := ((2 : Nat) : Int), counter := [] }
      [reqQ, reqQ, reqQ, reqH] cnOk).1.counter 2 :=
  count_le_limit_invariant 2 _ reqQ [reqQ, reqQ, reqQ, reqH] cnOk rfl
    (fun ip c h => by simp [lookupEntry] at h)

/-- C6: a request from a client to a path not starting with `/query` is
always delegated downstream — its outcome is exactly the downstream result
(annotated with the remaining-quota header) for every counter state — and
no client's count is changed: every effective count (stored count, or 0
for an absent record) is exactly as before; only a missing record may be
materialised with the explicit count 0. -/
theorem unguarded_passthrough (m : RateLimitMiddleware) (req : Request) (cl : Client)
    (cn : Request → Except DispatchError Response)
    (hc : req.client = some cl) (hp : startswith req.path "/query" = false) :
    (dispatch m req cn).2
      = Except.map (fun resp => setHeader resp "X-Remaining-Requests"
          (toString (m.daily_limit - ((lookupEntry m.counter cl.host).getD 0 : Int)))) (cn req) ∧
    ∀ ip : String, (lookupEntry (dispatch m req cn).1.counter ip).getD 0
      = (lookupEntry m.counter ip).getD 0 := by
  rw [dispatch_unguarded m req cl cn hc hp]
  refine ⟨rfl, ?_⟩
  intro ip
  cases hl : lookupEntry m.counter cl.host with
  | some c => simp [hl]
  | none =>
      simp only [hl]
      by_cases hip : ip = cl.host
      · subst hip
        rw [lookupEntry_setEntry_self, hl]
        rfl
      · rw [lookupEntry_setEntry_ne _ _ _ _ hip]

/-- Witness for C6: an unguarded request from an exhausted client is still
delegated and changes no effective count. -/
theorem unguarded_passthrough_witness :
    (dispatch { daily_limit := 3, counter := [("1.2.3.4", 3)] } reqH cnOk).2
      = Except.map (fun resp => setHeader resp "X-Remaining-Requests"
          (toString ((3 : Int) - ((lookupEntry [("1.2.3.4", 3)] "1.2.3.4").getD 0 : Int))))
          (cnOk reqH) ∧
    ∀ ip : String,
      (lookupEntry (dispatch { daily_limit := 3, counter := [("1.2.3.4", 3)] } reqH
        cnOk).1.counter ip).getD 0 = (lookupEntry [("1.2.3.4", 3)] ip).getD 0 :=
  unguarded_passthrough _ reqH { host := "1.2.3.4" } cnOk rfl (by decide)

/-- C7: counters of distinct clients are independent: a request from any
client other than `B` leaves `B`'s stored record unchanged, so after an
arbitrary sequence of such requests (for example one exhausting another
client's quota), client `B` still gets `min n L` allowed guarded requests
out of `n` — all `daily_limit` of them once `n ≥ L`. -/
theorem clients_independent (L n : Nat) (reqsA : List Request)
    (cn : Request → Except DispatchError Response)
    (reqB : Request) (clB : Client) (resp : Response)
    (hA : ∀ r ∈ reqsA, ∀ c : Client, r.client = some c → c.host ≠ clB.host)
    (hcB : reqB.client = some clB) (hpB : startswith reqB.path "/query" = true)
    (hcn : cn reqB = Except.ok resp) :
    (∀ (m : RateLimitMiddleware) (r : Request),
        (∀ c : Client, r.client = some c → c.host ≠ clB.host) →
        lookupEntry (dispatch m r cn).1.counter clB.host = lookupEntry m.counter clB.host) ∧
    ((runSeq ((runSeq { daily_limit := (L : Int), counter := [] } reqsA cn).1)
        (List.replicate n reqB) cn).2).countP isAllowed = min n L := by
  refine ⟨fun m r h => dispatch_frame m r cn clB.host h, ?_⟩
  have hdA : ((runSeq { daily_limit := (L : Int), counter := [] } reqsA cn).1).daily_limit
      = (L : Int) := runSeq_daily_limit cn reqsA _
  have hlA : lookupEntry ((runSeq { daily_limit := (L : Int), counter := [] }
      reqsA cn).1).counter clB.host = none := by
    rw [runSeq_frame cn clB.host reqsA _ hA]
    rfl
  rw [runSeq_guarded_fresh L reqB clB resp cn hcB hpB hcn n _ hdA hlA,
    expectedRun_countP L resp n 0 (Nat.zero_le L), Nat.sub_zero]

/-- Witness for C7: client 1.2.3.4 exhausts its quota of 1; client 5.6.7.8
still gets `min 2 1 = 1` allowed request. -/
theorem clients_independent_witness :
    (∀ (m : RateLimitMiddleware) (r : Request),
        (∀ c : Client, r.client = some c → c.host ≠ ("5.6.7.8" : String)) →
        lookupEntry (dispatch m r cnOk).1.counter "5.6.7.8" = lookupEntry m.counter "5.6.7.8") ∧
    ((runSeq ((runSeq { daily_limit := ((1 : Nat) : Int), counter := [] } [reqQ, reqQ] cnOk).1)
        (List.replicate 2 reqQB) cnOk).2).countP isAllowed = min 2 1 :=
  clients_independent 1 2 [reqQ, reqQ] cnOk reqQB { host := "5.6.7.8" } resp200
    (by
      intro r hr c hcl
      simp only [List.mem_cons, List.not_mem_nil, or_false] at hr
      rcases hr with rfl | rfl <;>
        · cases Option.some.inj hcl
          decide)
    rfl (by decide) rfl

/-- C8 counterexample: constructing with `daily_limit = 0`, which is not a
positive integer, succeeds and produces a tracker instead of signalling an
error. -/
theorem constructor_accepts_nonpositive_cex :
    _init_ 0 = Except.ok { daily_limit := 0, counter := [] } := by decide

/-- C8 amended: construction never fails — the constructor performs no
validation of `daily_limit` and stores any value, including every
non-positive integer. -/
theorem constructor_never_fails (daily_limit : Int) :
    _init_ daily_limit = Except.ok { daily_limit := daily_limit, counter := [] } := rfl

/-- C9: on an allowed guarded request the client's count is incremented,
and the increment is kept whatever the downstream handler does — the
post-dispatch count is `c + 1` for every `cn`, and a downstream failure
propagates with the increment still charged (no rollback). -/
theorem increment_not_rolled_back (m : RateLimitMiddleware) (req : Request) (cl : Client)
    (cn : Request → Except DispatchError Response) (c : Nat)
    (hc : req.client = some cl) (hp : startswith req.path "/query" = true)
    (hl : lookupEntry m.counter cl.host = some c) (hlt : (c : Int) < m.daily_limit) :
    lookupEntry (dispatch m req cn).1.counter cl.host = some (c + 1) ∧
    (∀ e : DispatchError, cn req = Except.error e →
      dispatch m req cn
        = ({ m with counter := setEntry m.counter cl.host (c + 1) }, Except.error e)) := by
  rw [dispatch_allowed_parts m req cl cn c hc hp hl hlt]
  refine ⟨lookupEntry_setEntry_self m.counter cl.host (c + 1), ?_⟩
  intro e he
  rw [he]
  rfl

/-- Witness for C9: the downstream handler fails, yet the count moved from
1 to 2 and stays there. -/
theorem increment_not_rolled_back_witness :
    lookupEntry (dispatch { daily_limit := 3, counter := [("1.2.3.4", 1)] } reqQ
      cnFail).1.counter "1.2.3.4" = some 2 ∧
    (∀ e : DispatchError, cnFail reqQ = Except.error e →
      dispatch { daily_limit := 3, counter := [("1.2.3.4", 1)] } reqQ cnFail
        = ({ daily_limit := 3, counter := setEntry [("1.2.3.4", 1)] "1.2.3.4" 2 },
           Except.error e)) :=
  increment_not_rolled_back _ reqQ { host := "1.2.3.4" } cnFail 1 rfl (by decide) (by decide)
    (by decide)

/-- C10: in every sequential execution from the empty counter map with
`daily_limit = L ≥ 1`, although the code computes `remaining` as
`daily_limit - count` with no clamping, every attached
`X-Remaining-Requests` value is the string of an integer `v` with
`0 ≤ v ≤ L`, because counts never exceed the limit. -/
theorem remaining_header_bounded (L : Nat) (_hL : 1 ≤ L) (reqs : List Request)
    (cn : Request → Except DispatchError Response) :
    ∀ o ∈ (runSeq { daily_limit := (L : Int), counter := [] } reqs cn).2,
      ∀ r : Response, o = Except.ok r →
        ∃ v : Int, 0 ≤ v ∧ v ≤ (L : Int) ∧
          lookupEntry r.headers "X-Remaining-Requests" = some (toString v) :=
  (runSeq_invariant L cn reqs _ rfl (fun ip c h => by simp [lookupEntry] at h)).2

/-- Witness for C10 at `L = 2` over a mixed run, instantiated at the
first outcome of the run (the successful response with header value
"1"). -/
theorem remaining_header_bounded_witness :
    ∃ v : Int, 0 ≤ v ∧ v ≤ ((2 : Nat) : Int) ∧
      lookupEntry (setHeader resp200 "X-Remaining-Requests" "1").headers
        "X-Remaining-Requests" = some (toString v) :=
  remaining_header_bounded 2 (by decide) [reqQ, reqH, reqQ, reqQ] cnOk
    (Except.ok (setHeader resp200 "X-Remaining-Requests" "1")) (by decide)
    (setHeader resp200 "X-Remaining-Requests" "1") rfl

end RateLimit
